import Mathlib

/-!
# Verification of `wavenet_vocoder/student_wavenet.py` (StudentWaveNet)

Shallow embedding of the StudentWaveNet module and proofs about it.

Conventions:
* Python exceptions are modelled with `Except PyErr` / `Option` (where only
  success vs. assertion failure matters).
* Tensors appearing in elementwise arithmetic are modelled per coordinate as
  elements of a commutative ring (a fixed-shape tensor over ℚ is a function
  from indices to ℚ, which is such a ring pointwise); where shapes themselves
  are at stake, a separate shape-level semantics with PyTorch broadcasting is
  used; where only data flow matters, tensor operations are abstract
  parameters.
* Attribute access on the module object (`self.<name>`) is modelled by lookup
  in the list of attribute names assigned by `__init__`, raising
  `AttributeError` on a miss, exactly as Python's `object.__getattr__` does.
-/

/-- Python exception kinds relevant to this module. -/
inductive PyErr where
  | attributeError : String → PyErr
  | valueError : PyErr
  | indexError : PyErr
  | assertionError : PyErr
  | zeroDivisionError : PyErr
deriving DecidableEq, Repr

/-! ## Batch forward, second loop (lines 174–175 and 188–194)

```python
mu_tot = Variable(torch.rand(z.size()).fill_(0)).cuda()
scale_tot = Variable(torch.rand(z.size()).fill_(1).cuda())
...
for i in range(len(s)):
    ss = Variable(torch.rand(z.size()).fill_(1).cuda())
    for j in range(i + 1, len(s)):
        ss = ss * s[j]
    mu_tot = mu_tot + m[i] * ss
    scale_tot = scale_tot * s[i]
return mu_tot, scale_tot
```

Elementwise, with `m i`/`s i` the recorded per-step shift/scale values at a
fixed tensor coordinate.  The inner loop over `range(i+1, len(s))` multiplies
exactly the elements of `s.drop (i+1)`.
-/

def composeTransform {α : Type} [CommRing α] (m s : List α) : α × α :=
  (List.range s.length).foldl
    (fun acc i =>
      let ss := (s.drop (i + 1)).foldl (fun a b => a * b) 1
      (acc.1 + m.getD i 0 * ss, acc.2 * s.getD i 1))
    (0, 1)

/-- The spec's composition rule, stated from the spec's words: total scale is
the product of all per-step scales. -/
def specScaleTot {α : Type} [CommRing α] (s : List α) : α := s.prod

/-- The spec's composition rule, stated from the spec's words: total shift is
Σ over steps `i` of `mu_i × (product of scale_j for j > i)`. -/
def specMuTot {α : Type} [CommRing α] (m s : List α) : α :=
  ∑ i ∈ Finset.range s.length, m.getD i 0 * (s.drop (i + 1)).prod

theorem foldl_range_pair {α : Type} [CommRing α] (fm fs : Nat → α) (n : Nat) (a b : α) :
    (List.range n).foldl (fun acc i => (acc.1 + fm i, acc.2 * fs i)) (a, b)
      = (a + ∑ i ∈ Finset.range n, fm i, b * ∏ i ∈ Finset.range n, fs i) := by
  induction n generalizing a b with
  | zero => simp
  | succ k ih =>
      rw [List.range_succ, List.foldl_append, ih]
      simp [Finset.sum_range_succ, Finset.prod_range_succ, add_assoc, mul_assoc]

theorem prod_range_getD {α : Type} [CommRing α] :
    ∀ s : List α, (∏ i ∈ Finset.range s.length, s.getD i 1) = s.prod
  | [] => by simp
  | a :: t => by
      rw [List.length_cons, Finset.prod_range_succ']
      simp only [List.getD_cons_succ, List.getD_cons_zero, prod_range_getD t,
        List.prod_cons]
      exact mul_comm _ _

/-- **C1.** In the batch forward path, the second loop returns a total scale
equal to the product of all recorded per-step scales and a total shift equal
to Σ over steps `i` of `mu_i × (Π of scale_j for j > i)`, for every number of
steps `n ≥ 1` and every recorded per-step `(mu_i, scale_i)`. -/
theorem composeTransform_correct {α : Type} [CommRing α] (m s : List α)
    (hlen : m.length = s.length) (hn : 1 ≤ s.length) :
    composeTransform m s = (specMuTot m s, specScaleTot s) := by
  unfold composeTransform specMuTot specScaleTot
  have h := foldl_range_pair
    (fun i => m.getD i 0 * (s.drop (i + 1)).foldl (fun a b => a * b) 1)
    (fun i => s.getD i 1) s.length (0 : α) 1
  rw [h, prod_range_getD]
  refine Prod.ext ?_ (by simp)
  simp only [zero_add]
  refine Finset.sum_congr rfl fun i _ => ?_
  rw [List.prod_eq_foldl]

theorem composeTransform_correct_witness :
    ([(2 : ℤ), 3].length = [(5 : ℤ), 7].length) ∧ 1 ≤ [(5 : ℤ), 7].length ∧
      composeTransform [(2 : ℤ), 3] [5, 7] = (specMuTot [2, 3] [5, 7], specScaleTot [5, 7]) :=
  ⟨rfl, by decide, composeTransform_correct [2, 3] [5, 7] rfl (by decide)⟩

/-! ## Incremental generation: step-count resolution (lines 227–241)

```python
if test_inputs is not None:
    if self.scalar_input:
        if test_inputs.size(1) == 1:
            test_inputs = test_inputs.transpose(1, 2).contiguous()
    else:
        if test_inputs.size(1) == self.out_channels:
            test_inputs = test_inputs.transpose(1, 2).contiguous()
    B = test_inputs.size(0)
    if T is None:
        T = test_inputs.size(1)
    else:
        T = max(T, test_inputs.size(1))
T = int(T)
```

and the generation loop (lines 279–314), which appends exactly one output
tensor per iteration of `range(T)`.
-/

def normalizeTestInputs (scalar_input : Bool) (out_channels : Nat)
    (sh : Nat × Nat × Nat) : Nat × Nat × Nat :=
  if scalar_input then
    (if sh.2.1 = 1 then (sh.1, sh.2.2, sh.2.1) else sh)
  else
    (if sh.2.1 = out_channels then (sh.1, sh.2.2, sh.2.1) else sh)

def resolveT (tOpt : Option Nat) (testShape : Option (Nat × Nat × Nat)) : Option Nat :=
  match testShape with
  | none => tOpt
  | some sh =>
    match tOpt with
    | none => some sh.2.1
    | some t => some (max t sh.2.1)

def incrementalLoopOutputs {α : Type} (T : Nat) (step : List α → Nat → α) : List α :=
  (List.range T).foldl (fun outputs t => outputs ++ [step outputs t]) []

theorem incrementalLoopOutputs_length {α : Type} (T : Nat) (step : List α → Nat → α) :
    (incrementalLoopOutputs T step).length = T := by
  unfold incrementalLoopOutputs
  suffices h : ∀ (l : List Nat) (init : List α),
      ((l.foldl (fun outputs t => outputs ++ [step outputs t]) init).length
        = init.length + l.length) by
    simpa using h (List.range T) []
  intro l
  induction l with
  | nil => simp
  | cons a t ih =>
      intro init
      rw [List.foldl_cons, ih]
      have hsing : [step init a].length = 1 := rfl
      simp only [List.length_append, List.length_cons, hsing]
      omega

/-- **C2, counterexample.** With requested `T = 1` and a scalar-mode
teacher-forcing reference of shape `(1, 1, 3)` (time length 3), the resolved
step count is `3 = max(1, 3)` and the generated output has time length 3, not
the requested 1 — refuting "the output length is the requested T regardless of
the reference's length". -/
theorem incremental_T_claim_counterexample :
    resolveT (some 1) (some (normalizeTestInputs true 2 (1, 1, 3))) = some 3 ∧
    (incrementalLoopOutputs 3 (fun _ _ => ())).length ≠ 1 := by decide

/-- **C2, amended.** The generation loop emits exactly one output per step, so
the output time length equals the resolved step count: `max(T, L)` when both a
requested `T` and a (layout-normalized) reference of time length `L` are given;
`L` when `T` is unspecified; `T` when no reference is given.  The layout
normalization transposes a scalar-mode reference given as `(B, 1, L)` so that
its time length is `L`. -/
theorem incremental_output_length (t L B C oc B0 : Nat) (step : List ℚ → Nat → ℚ) :
    (incrementalLoopOutputs ((resolveT (some t) (some (B, L, C))).getD 0) step).length
        = max t L ∧
    (incrementalLoopOutputs ((resolveT none (some (B, L, C))).getD 0) step).length = L ∧
    (incrementalLoopOutputs ((resolveT (some t) none).getD 0) step).length = t ∧
    (normalizeTestInputs true oc (B0, 1, L)).2.1 = L := by
  refine ⟨?_, ?_, ?_, ?_⟩ <;>
    simp [resolveT, incrementalLoopOutputs_length, normalizeTestInputs]

/-! ## Module attributes and the incremental path (lines 72–134, 222, 290–301, 321, 324–332)

`__init__` assigns exactly these instance attributes (lines 73–77, 82/84, 85,
86, 105, 114/116, 120/132, 134).  `incremental_forward` (line 297) and
`clear_buffer` (line 328) iterate over `self.last_conv_layers`, a name never
assigned; in Python, reading a missing attribute on the object raises
`AttributeError`.  The `try/except AttributeError` inside those loops wraps
only the per-element calls (`f.incremental_forward(x)` / `f.clear_buffer()`),
not the lookup of the iteration target itself. -/

def studentWaveNetAttrs : List String :=
  ["scalar_input", "out_channels", "cin_channels", "is_student", "last_layers",
   "first_conv", "iaf_layers", "conv_layers", "last_layer", "embed_speakers",
   "upsample_conv", "receptive_field"]

def getattrS (attrs : List String) (name : String) : Except PyErr Unit :=
  if name ∈ attrs then Except.ok () else Except.error (PyErr.attributeError name)

/-- `StudentWaveNet.clear_buffer` (lines 324–332): clears `self.first_conv`,
then every layer in `self.conv_layers`, then iterates
`self.last_conv_layers` (the per-element `clear_buffer` calls are external
collaborators and always succeed in this model; only attribute lookups can
fail). -/
def clear_bufferM (attrs : List String) : Except PyErr Unit := do
  let _ ← getattrS attrs "first_conv"
  let _ ← getattrS attrs "conv_layers"
  let _ ← getattrS attrs "last_conv_layers"
  pure ()

/-- One incremental generation step (lines 290–301): input projection,
residual layers, then the output head loop `for f in self.last_conv_layers:`
whose body is `try: x = f.incremental_forward(x) except AttributeError:
x = f(x)`. -/
def incrementalStepM (attrs : List String) : Except PyErr Unit := do
  let _ ← getattrS attrs "first_conv"
  let _ ← getattrS attrs "conv_layers"
  let _ ← getattrS attrs "last_conv_layers"
  pure ()

/-- `StudentWaveNet.incremental_forward` control flow (lines 222, 279, 321):
`self.clear_buffer()` is its first statement, the loop runs `T` steps, and the
trailing `self.clear_buffer()` is on the fall-through success path only — the
method has no `try/finally`. -/
def incremental_forwardM (attrs : List String) (T : Nat) : Except PyErr Unit := do
  clear_bufferM attrs
  (List.range T).forM (fun _ => incrementalStepM attrs)
  clear_bufferM attrs
  pure ()

/-- **C3 (code bug).** The incremental step's output-head loop reads
`self.last_conv_layers`, which `__init__` never assigns (the head is stored as
`self.last_layer`, line 105), so every incremental step raises
`AttributeError` instead of feeding the skip sum through the head with the
non-fatal fallback. -/
theorem incrementalStep_head_attribute_bug :
    incrementalStepM studentWaveNetAttrs
        = Except.error (PyErr.attributeError "last_conv_layers") ∧
    "last_layer" ∈ studentWaveNetAttrs ∧
    "last_conv_layers" ∉ studentWaveNetAttrs :=
  ⟨rfl, by decide, by decide⟩

/-- **C4 (code bug).** `clear_buffer` itself iterates the never-assigned
`self.last_conv_layers` and raises `AttributeError`, so the buffers are not
cleared as claimed and every `incremental_forward` call fails at its very
first statement, for every requested step count `T`; moreover the trailing
clear sits on the success path only (no `try/finally`). -/
theorem clear_buffer_attribute_bug (T : Nat) :
    clear_bufferM studentWaveNetAttrs
        = Except.error (PyErr.attributeError "last_conv_layers") ∧
    incremental_forwardM studentWaveNetAttrs T
        = Except.error (PyErr.attributeError "last_conv_layers") := by
  exact ⟨rfl, rfl⟩

/-! ## Construction-time contract checks (lines 72–134)

```python
assert layers % stacks == 0            # line 79
...                                    # submodule construction
if gin_channels > 0:                   # line 112
    assert n_speakers is not None      # line 113
    self.embed_speakers = Embedding(...)
```

In Python, `layers % stacks` with `stacks == 0` raises `ZeroDivisionError`
before the assert is evaluated; a failed `assert` raises `AssertionError`, so
`__init__` never returns and no constructed object escapes to the caller. -/

def studentWaveNetInit (layers stacks' : Nat) (gin_channels : Int)
    (n_speakers : Option Nat) : Except PyErr (List String) :=
  if stacks' = 0 then Except.error PyErr.zeroDivisionError
  else if layers % stacks' = 0 then
    if gin_channels > 0 then
      match n_speakers with
      | some _ => Except.ok studentWaveNetAttrs
      | none => Except.error PyErr.assertionError
    else Except.ok studentWaveNetAttrs
  else Except.error PyErr.assertionError

/-- **C5.** For every configuration with a positive stack count, construction
fails with an assertion exactly when the layer count is not divisible by the
stack count or global conditioning (`gin_channels > 0`) is requested without a
speaker count, and no constructed object escapes; every configuration
satisfying both contracts constructs successfully without raising on these
checks. -/
theorem studentWaveNetInit_contracts (layers stacks' : Nat) (gin : Int)
    (ns : Option Nat) (hs : 0 < stacks') :
    (studentWaveNetInit layers stacks' gin ns = Except.error PyErr.assertionError ↔
      (layers % stacks' ≠ 0 ∨ (0 < gin ∧ ns = none))) ∧
    (layers % stacks' = 0 → (0 < gin → ns ≠ none) →
      studentWaveNetInit layers stacks' gin ns = Except.ok studentWaveNetAttrs) := by
  have hs0 : stacks' ≠ 0 := Nat.pos_iff_ne_zero.mp hs
  constructor
  · unfold studentWaveNetInit
    rw [if_neg hs0]
    by_cases hmod : layers % stacks' = 0
    · rw [if_pos hmod]
      by_cases hg : gin > 0
      · rw [if_pos hg]
        cases ns with
        | none => simp [hmod, hg]
        | some k => simp [hmod, hg]
      · rw [if_neg hg]
        simp [hmod, hg]
    · rw [if_neg hmod]
      simp [hmod]
  · intro hmod hg
    unfold studentWaveNetInit
    rw [if_neg hs0, if_pos hmod]
    by_cases hgin : gin > 0
    · rw [if_pos hgin]
      cases hns : ns with
      | none => exact absurd hns (hg hgin)
      | some k => rfl
    · rw [if_neg hgin]

theorem studentWaveNetInit_contracts_witness :
    studentWaveNetInit 30 3 (-1) none = Except.ok studentWaveNetAttrs ∧
    studentWaveNetInit 31 3 (-1) none = Except.error PyErr.assertionError ∧
    studentWaveNetInit 30 3 16 none = Except.error PyErr.assertionError := by
  refine ⟨(studentWaveNetInit_contracts 30 3 (-1) none (by decide)).2 (by decide)
      (by decide), ?_, ?_⟩
  · exact (studentWaveNetInit_contracts 31 3 (-1) none (by decide)).1.mpr
      (Or.inl (by decide))
  · exact (studentWaveNetInit_contracts 30 3 16 none (by decide)).1.mpr
      (Or.inr ⟨by decide, rfl⟩)

/-! ## Skip accumulation in the incremental step (lines 292–295)

```python
skips = None
for f in self.conv_layers:
    x, h = f.incremental_forward(x, ct, gt)
    skips = h if skips is None else (skips + h) * math.sqrt(0.5)
```

Elementwise per tensor coordinate; `math.sqrt(0.5)` is modelled as the real
`Real.sqrt (1/2)`. -/

def skipAccum {α : Type} [Mul α] [Add α] (c : α) : Option α → α → α
  | none, h => h
  | some sk, h => (sk + h) * c

def skipFold {α : Type} [Mul α] [Add α] (c : α) (hs : List α) : Option α :=
  hs.foldl (fun acc h => some (skipAccum c acc h)) none

/-- **C6.** The first layer's skip output initializes the accumulator, and for
two layers with skip outputs `h1`, `h2` the combined value is
`(h1 + h2) * sqrt(0.5)` — and (whenever `h1 + h2 ≠ 0`) not `h1 + h2`. -/
theorem skip_combination (h1 h2 : ℝ) (hne : h1 + h2 ≠ 0) :
    skipFold (Real.sqrt (1 / 2)) [h1] = some h1 ∧
    skipFold (Real.sqrt (1 / 2)) [h1, h2] = some ((h1 + h2) * Real.sqrt (1 / 2)) ∧
    skipFold (Real.sqrt (1 / 2)) [h1, h2] ≠ some (h1 + h2) := by
  refine ⟨rfl, rfl, fun hcontra => ?_⟩
  have h : (h1 + h2) * Real.sqrt (1 / 2) = h1 + h2 := by
    have := hcontra
    simp only [skipFold, List.foldl_cons, List.foldl_nil, skipAccum,
      Option.some.injEq] at this
    exact this
  have hs : Real.sqrt (1 / 2) = 1 :=
    mul_left_cancel₀ hne (h.trans (mul_one (h1 + h2)).symm)
  have hlt : Real.sqrt (1 / 2) < 1 := by
    rw [show (1 : ℝ) = Real.sqrt 1 by simp]
    exact Real.sqrt_lt_sqrt (by norm_num) (by norm_num)
  rw [hs] at hlt
  exact lt_irrefl 1 hlt

theorem skip_combination_witness :
    ((1 : ℝ) + 1 ≠ 0) ∧
    (skipFold (Real.sqrt (1 / 2)) [(1 : ℝ)] = some 1 ∧
     skipFold (Real.sqrt (1 / 2)) [(1 : ℝ), 1] = some ((1 + 1) * Real.sqrt (1 / 2)) ∧
     skipFold (Real.sqrt (1 / 2)) [(1 : ℝ), 1] ≠ some (1 + 1)) :=
  ⟨by norm_num, skip_combination 1 1 (by norm_num)⟩

/-! ## Weight-normalization removal (lines 334–341)

```python
def make_generation_fast_(self):
    def remove_weight_norm(m):
        try:
            nn.utils.remove_weight_norm(m)
        except ValueError:  # this module didn't have weight norm
            return
    self.apply(remove_weight_norm)
```

A module is modelled by its folded weight and, when weight normalization is
installed, its reparameterization `(g, v)`; `nn.utils.remove_weight_norm`
folds `(g, v)` into a plain weight (the fold itself, `g·v/‖v‖`, is the
external collaborator `computeW`) and raises `ValueError` if the module has no
weight-norm hook.  `self.apply` visits every submodule. -/

structure PyModule where
  weight : ℚ
  wn : Option (ℚ × ℚ)
deriving DecidableEq, Repr

def remove_weight_norm (computeW : ℚ × ℚ → ℚ) (m : PyModule) : Except PyErr PyModule :=
  match m.wn with
  | some gv => Except.ok { weight := computeW gv, wn := none }
  | none => Except.error PyErr.valueError

def remove_weight_norm_safe (computeW : ℚ × ℚ → ℚ) (m : PyModule) : PyModule :=
  match remove_weight_norm computeW m with
  | Except.ok m2 => m2
  | Except.error _ => m

def make_generation_fast (computeW : ℚ × ℚ → ℚ) (net : List PyModule) : List PyModule :=
  net.map (remove_weight_norm_safe computeW)

theorem remove_weight_norm_safe_idem (c : ℚ × ℚ → ℚ) (m : PyModule) :
    remove_weight_norm_safe c (remove_weight_norm_safe c m)
      = remove_weight_norm_safe c m := by
  obtain ⟨w, wn⟩ := m
  cases wn <;> simp [remove_weight_norm_safe, remove_weight_norm]

/-- **C9.** Weight-normalization removal over the whole network is idempotent:
a second `make_generation_fast_` pass leaves every layer's weights identical
to their values after the first pass, and a layer that was never
weight-normalized is skipped without error (left unchanged). -/
theorem make_generation_fast_idempotent (computeW : ℚ × ℚ → ℚ)
    (net : List PyModule) (m : PyModule) (hm : m.wn = none) :
    make_generation_fast computeW (make_generation_fast computeW net)
        = make_generation_fast computeW net ∧
    remove_weight_norm_safe computeW m = m := by
  constructor
  · unfold make_generation_fast
    rw [List.map_map]
    exact List.map_congr_left fun x _ => remove_weight_norm_safe_idem computeW x
  · simp [remove_weight_norm_safe, remove_weight_norm, hm]

theorem make_generation_fast_idempotent_witness :
    ((⟨3, none⟩ : PyModule).wn = none) ∧
    (make_generation_fast (fun p => p.1 * p.2)
        (make_generation_fast (fun p => p.1 * p.2) [⟨3, none⟩, ⟨5, some (2, 4)⟩])
      = make_generation_fast (fun p => p.1 * p.2) [⟨3, none⟩, ⟨5, some (2, 4)⟩] ∧
     remove_weight_norm_safe (fun p => p.1 * p.2) ⟨3, none⟩ = ⟨3, none⟩) :=
  ⟨rfl, make_generation_fast_idempotent (fun p => p.1 * p.2)
    [⟨3, none⟩, ⟨5, some (2, 4)⟩] ⟨3, none⟩ rfl⟩

/-! ## Default initial input in quantized mode (lines 265–270)

```python
if initial_input is None:
    if self.scalar_input:
        initial_input = Variable(torch.zeros(B, 1, 1))
    else:
        initial_input = Variable(torch.zeros(B, 1, self.out_channels))
        initial_input[:, :, 127] = 1  # TODO: is this ok?
```

Per batch row, the `(1, out_channels)` slice is a vector of `out_channels`
zeros; the index assignment `[..., 127] = 1` is valid in PyTorch exactly when
`127 < out_channels`, and raises `IndexError` otherwise. -/

def setIndex (v : List ℚ) (i : Nat) (x : ℚ) : Except PyErr (List ℚ) :=
  if i < v.length then Except.ok (v.set i x) else Except.error PyErr.indexError

def defaultInitialInput (out_channels : Nat) : Except PyErr (List ℚ) :=
  setIndex (List.replicate out_channels 0) 127 1

/-- **C10.** In quantized categorical mode with no initial input, the default
sample is the length-`out_channels` zero vector with position 127 set to 1;
this is well-defined exactly when `out_channels > 127`, and for every
`out_channels ≤ 127` the defaulting fails with an out-of-range index. -/
theorem defaultInitialInput_spec (oc : Nat) :
    (127 < oc → defaultInitialInput oc = Except.ok ((List.replicate oc (0 : ℚ)).set 127 1) ∧
      ((List.replicate oc (0 : ℚ)).set 127 1).length = oc ∧
      ((List.replicate oc (0 : ℚ)).set 127 1).getD 127 0 = 1) ∧
    (oc ≤ 127 → defaultInitialInput oc = Except.error PyErr.indexError) := by
  constructor
  · intro h
    refine ⟨?_, by simp, ?_⟩
    · unfold defaultInitialInput setIndex
      rw [List.length_replicate, if_pos h]
    · rw [List.getD_eq_getElem?_getD, List.getElem?_set_self (by simp [h])]
      rfl
  · intro h
    unfold defaultInitialInput setIndex
    rw [List.length_replicate, if_neg (by omega)]

set_option maxRecDepth 4096 in
theorem defaultInitialInput_spec_witness :
    (defaultInitialInput 256 = Except.ok ((List.replicate 256 (0 : ℚ)).set 127 1) ∧
      ((List.replicate 256 (0 : ℚ)).set 127 1).length = 256 ∧
      ((List.replicate 256 (0 : ℚ)).set 127 1).getD 127 0 = 1) ∧
    defaultInitialInput 100 = Except.error PyErr.indexError :=
  ⟨(defaultInitialInput_spec 256).1 (by decide),
   (defaultInitialInput_spec 100).2 (by decide)⟩

/-! ## Batch forward, shape semantics (lines 154–194)

Shape-level semantics of `StudentWaveNet.forward`.  A tensor shape is
`(batch, channels, time)`.  Elementwise binary operations follow PyTorch
broadcasting: per axis the two extents must agree or one must be 1, otherwise
the operation raises (modelled as `none`).  `Conv1d1x1(inC, outC)` requires
`inC` input channels and preserves batch and time; a `ResidualConv1dGLU` block
preserves the `(B, residual_channels, T)` shape of its residual stream; `ReLU`
preserves shape.  The conditioning tensors influence values only, not the
residual-stream shapes, so they are omitted here. -/

abbrev Dim3 := Nat × Nat × Nat

def bdim (a b : Nat) : Option Nat :=
  if a = b then some a
  else if a = 1 then some b
  else if b = 1 then some a
  else none

def bshape (x y : Dim3) : Option Dim3 := do
  let b ← bdim x.1 y.1
  let c ← bdim x.2.1 y.2.1
  let t ← bdim x.2.2 y.2.2
  pure (b, c, t)

def conv1x1Shape (inC outC : Nat) (sh : Dim3) : Option Dim3 :=
  if sh.2.1 = inC then some (sh.1, outC, sh.2.2) else none

def residualLayerShape (residual_channels : Nat) (sh : Dim3) : Option Dim3 :=
  if sh.2.1 = residual_channels then some sh else none

def residualStackShape (residual_channels : Nat) : Nat → Dim3 → Option Dim3
  | 0, sh => some sh
  | n + 1, sh => (residualLayerShape residual_channels sh).bind
      (residualStackShape residual_channels n)

structure StudentCfg where
  scalar_input : Bool
  out_channels : Nat
  residual_channels : Nat
  iaf_layer_size : List Nat
deriving DecidableEq, Repr

/-- `first_conv` input channel count (lines 81–84). -/
def firstConvInC (cfg : StudentCfg) : Nat :=
  if cfg.scalar_input then 1 else cfg.out_channels

/-- One flow step (lines 179–187): `new_z = first_conv(z)`, the step's
residual layers, the head (`ReLU` + `Conv1d1x1(residual, out)`), the split
`mu_f = new_z[:, :1, :]`, `scale_f = exp(new_z[:, 1:, :])` (`exp` preserves
shape), and the update `z = z * scale_f + mu_f` under broadcasting.  Returns
the updated `z` and the recorded shapes of `scale_f` and `mu_f`. -/
def iafStepShape (cfg : StudentCfg) (nLayers : Nat) (z : Dim3) :
    Option (Dim3 × Dim3 × Dim3) :=
  (conv1x1Shape (firstConvInC cfg) cfg.residual_channels z).bind fun nz =>
  (residualStackShape cfg.residual_channels nLayers nz).bind fun nz2 =>
  (conv1x1Shape cfg.residual_channels cfg.out_channels nz2).bind fun nz3 =>
  (bshape z (nz3.1, nz3.2.1 - 1, nz3.2.2)).bind fun z1 =>
  (bshape z1 (nz3.1, min 1 nz3.2.1, nz3.2.2)).bind fun z2 =>
  some (z2, (nz3.1, nz3.2.1 - 1, nz3.2.2), (nz3.1, min 1 nz3.2.1, nz3.2.2))

/-- The loop over flow steps (lines 178–187), accumulating the recorded
`s`/`m` shape lists in order. -/
def iafLoopShape (cfg : StudentCfg) :
    List Nat → Dim3 × List Dim3 × List Dim3 → Option (Dim3 × List Dim3 × List Dim3)
  | [], st => some st
  | n :: rest, (z, s, m) =>
      (iafStepShape cfg n z).bind fun r =>
        iafLoopShape cfg rest (r.1, s ++ [r.2.1], m ++ [r.2.2])

/-- Inner product loop of the composition pass (lines 189–191):
`ss = ones(z.size())`, then `ss = ss * s[j]` for `j` in `range(i+1, len(s))`,
i.e. over `s.drop (i+1)`, each `*` broadcasting. -/
def prodShape : Dim3 → List Dim3 → Option Dim3
  | a, [] => some a
  | a, d :: rest => (bshape a d).bind fun a2 => prodShape a2 rest

/-- Outer composition loop (lines 188–193), shape level: `zf` is the value of
`z` after the flow loop (its size is what `ss` is created with). -/
def composeLoopShape (zf : Dim3) (s m : List Dim3) :
    List Nat → Dim3 × Dim3 → Option (Dim3 × Dim3)
  | [], acc => some acc
  | i :: rest, (muT, scT) =>
      (prodShape zf (s.drop (i + 1))).bind fun ss =>
      (bshape (m.getD i zf) ss).bind fun ms =>
      (bshape muT ms).bind fun mu2 =>
      (bshape scT (s.getD i zf)).bind fun sc2 =>
      composeLoopShape zf s m rest (mu2, sc2)

/-- Shape semantics of `StudentWaveNet.forward` (lines 154–194): the noise `z`
has the input's shape (line 156); `mu_tot`/`scale_tot` are created with
`z.size()` before the flow loop (lines 174–175); then the flow loop and the
composition loop run. -/
def forwardShapes (cfg : StudentCfg) (xsh : Dim3) : Option (Dim3 × Dim3) :=
  (iafLoopShape cfg cfg.iaf_layer_size (xsh, [], [])).bind fun st =>
    composeLoopShape st.1 st.2.1 st.2.2 (List.range st.2.1.length) (xsh, xsh)

theorem bdim_self (a : Nat) : bdim a a = some a := by simp [bdim]

theorem bdim_one_right (a : Nat) : bdim a 1 = some a := by
  unfold bdim
  by_cases h : a = 1 <;> simp [h]

theorem bdim_one_left (a : Nat) : bdim 1 a = some a := by
  unfold bdim
  by_cases h : a = 1 <;> simp [h, eq_comm]

theorem bshape_right_one (B C T : Nat) : bshape (B, C, T) (B, 1, T) = some (B, C, T) := by
  simp [bshape, bdim_self, bdim_one_right]

theorem bshape_left_one (B C T : Nat) : bshape (B, 1, T) (B, C, T) = some (B, C, T) := by
  simp [bshape, bdim_self, bdim_one_left]

theorem bshape_self (sh : Dim3) : bshape sh sh = some sh := by
  obtain ⟨B, C, T⟩ := sh
  simp [bshape, bdim_self]

theorem conv1x1Shape_inv (inC outC : Nat) (sh out : Dim3)
    (h : conv1x1Shape inC outC sh = some out) :
    sh.2.1 = inC ∧ out = (sh.1, outC, sh.2.2) := by
  unfold conv1x1Shape at h
  split at h
  · exact ⟨by assumption, (Option.some.inj h).symm⟩
  · exact absurd h (by simp)

theorem residualStackShape_inv (r : Nat) :
    ∀ (n : Nat) (sh out : Dim3), residualStackShape r n sh = some out → out = sh
  | 0, sh, out, h => (Option.some.inj h).symm
  | n + 1, sh, out, h => by
      unfold residualStackShape residualLayerShape at h
      split at h
      · simp only [Option.some_bind] at h
        exact residualStackShape_inv r n sh out h
      · exact absurd h (by simp)

theorem iafStepShape_out2 {cfg : StudentCfg} (hc : cfg.out_channels = 2)
    (n : Nat) (z z2 sc mu : Dim3)
    (h : iafStepShape cfg n z = some (z2, sc, mu)) :
    z2 = z ∧ sc = (z.1, 1, z.2.2) ∧ mu = (z.1, 1, z.2.2) := by
  obtain ⟨B, C, T⟩ := z
  unfold iafStepShape at h
  obtain ⟨nz, h1, h⟩ := Option.bind_eq_some.mp h
  obtain ⟨nz2, h2, h⟩ := Option.bind_eq_some.mp h
  obtain ⟨nz3, h3, h⟩ := Option.bind_eq_some.mp h
  obtain ⟨w1, h4, h⟩ := Option.bind_eq_some.mp h
  obtain ⟨w2, h5, h⟩ := Option.bind_eq_some.mp h
  obtain ⟨-, hnz⟩ := conv1x1Shape_inv _ _ _ _ h1
  have hnz2 : nz2 = nz := residualStackShape_inv _ _ _ _ h2
  obtain ⟨-, hnz3⟩ := conv1x1Shape_inv _ _ _ _ h3
  rw [hnz2, hnz, hc] at hnz3
  subst hnz3
  simp only [hnz] at h4 h5
  have hmin : min 1 2 = 1 := rfl
  have hsub : 2 - 1 = 1 := rfl
  rw [hsub, bshape_right_one] at h4
  have hw1 : w1 = (B, C, T) := (Option.some.inj h4).symm
  rw [hw1, hmin, bshape_right_one] at h5
  have hw2 : w2 = (B, C, T) := (Option.some.inj h5).symm
  rw [hw2] at h
  have h9 := Option.some.inj h
  exact ⟨(congrArg Prod.fst h9).symm, (congrArg (fun p => p.2.1) h9).symm,
    (congrArg (fun p => p.2.2) h9).symm⟩

theorem iafLoopShape_inv {cfg : StudentCfg} (hc : cfg.out_channels = 2) (z : Dim3) :
    ∀ (ls : List Nat) (s m : List Dim3) (st : Dim3 × List Dim3 × List Dim3),
    (∀ d ∈ s, d = (z.1, 1, z.2.2)) → (∀ d ∈ m, d = (z.1, 1, z.2.2)) →
    iafLoopShape cfg ls (z, s, m) = some st →
    st.1 = z ∧ (∀ d ∈ st.2.1, d = (z.1, 1, z.2.2)) ∧ (∀ d ∈ st.2.2, d = (z.1, 1, z.2.2))
  | [], s, m, st, hs, hm, h => by
      cases h
      exact ⟨rfl, hs, hm⟩
  | n :: rest, s, m, st, hs, hm, h => by
      unfold iafLoopShape at h
      cases hstep : iafStepShape cfg n z with
      | none => rw [hstep] at h; exact absurd h (by simp)
      | some r =>
        rw [hstep] at h
        simp only [Option.some_bind] at h
        obtain ⟨r1, r2, r3⟩ := r
        obtain ⟨hz2, hsc, hmu⟩ := iafStepShape_out2 hc n z r1 r2 r3 hstep
        rw [hz2] at h
        refine iafLoopShape_inv hc z rest (s ++ [r2]) (m ++ [r3]) st ?_ ?_ h
        · intro d hd
          rcases List.mem_append.mp hd with hd | hd
          · exact hs d hd
          · rw [List.mem_singleton.mp hd]; exact hsc
        · intro d hd
          rcases List.mem_append.mp hd with hd | hd
          · exact hm d hd
          · rw [List.mem_singleton.mp hd]; exact hmu

theorem prodShape_inv (B C T : Nat) :
    ∀ (l : List Dim3) (out : Dim3), (∀ d ∈ l, d = (B, 1, T)) →
    prodShape (B, C, T) l = some out → out = (B, C, T)
  | [], out, _, h => (Option.some.inj h).symm
  | d :: rest, out, hl, h => by
      have hd : d = (B, 1, T) := hl d (List.mem_cons_self d rest)
      unfold prodShape at h
      rw [hd, bshape_right_one] at h
      simp only [Option.some_bind] at h
      exact prodShape_inv B C T rest out
        (fun d2 hd2 => hl d2 (List.mem_cons_of_mem d hd2)) h

theorem getD_mem_or_default {β : Type} (l : List β) (i : Nat) (d : β) :
    l.getD i d ∈ l ∨ l.getD i d = d := by
  by_cases h : i < l.length
  · left
    rw [List.getD_eq_getElem l d h]
    exact List.getElem_mem h
  · right
    exact List.getD_eq_default l d (Nat.le_of_not_lt h)

theorem composeLoopShape_inv (B C T : Nat) (s m : List Dim3)
    (hs : ∀ d ∈ s, d = (B, 1, T)) (hm : ∀ d ∈ m, d = (B, 1, T)) :
    ∀ (l : List Nat) (out : Dim3 × Dim3),
    composeLoopShape (B, C, T) s m l ((B, C, T), (B, C, T)) = some out →
    out = ((B, C, T), (B, C, T))
  | [], out, h => (Option.some.inj h).symm
  | i :: rest, out, h => by
      unfold composeLoopShape at h
      cases hp : prodShape (B, C, T) (s.drop (i + 1)) with
      | none => rw [hp] at h; exact absurd h (by simp)
      | some ss =>
        rw [hp] at h
        simp only [Option.some_bind] at h
        have hss : ss = (B, C, T) := prodShape_inv B C T _ ss
          (fun d hd => hs d (List.mem_of_mem_drop hd)) hp
        have hms : bshape (m.getD i (B, C, T)) ss = some (B, C, T) := by
          rw [hss]
          rcases getD_mem_or_default m i (B, C, T) with hmem | hdef
          · rw [hm _ hmem]; exact bshape_left_one B C T
          · rw [hdef]; exact bshape_self _
        rw [hms] at h
        simp only [Option.some_bind] at h
        rw [bshape_self] at h
        simp only [Option.some_bind] at h
        have hsc : bshape (B, C, T) (s.getD i (B, C, T)) = some (B, C, T) := by
          rcases getD_mem_or_default s i (B, C, T) with hmem | hdef
          · rw [hs _ hmem]; exact bshape_right_one B C T
          · rw [hdef]; exact bshape_self _
        rw [hsc] at h
        simp only [Option.some_bind] at h
        exact composeLoopShape_inv B C T s m hs hm rest out h

/-- **C8, counterexample.** In quantized one-hot mode with `out_channels = 2`
and an input of shape `(1, 2, 3)` (channel dimension greater than 1), the
batch forward path succeeds but returns tensors of shape `(1, 2, 3)`, not
`(1, 1, 3)` as claimed. -/
theorem forwardShapes_claim_counterexample :
    (forwardShapes ⟨false, 2, 64, [1]⟩ (1, 2, 3)).isSome = true ∧
    forwardShapes ⟨false, 2, 64, [1]⟩ (1, 2, 3) ≠ some ((1, 1, 3), (1, 1, 3)) ∧
    forwardShapes ⟨false, 2, 64, [1]⟩ (1, 2, 3) = some ((1, 2, 3), (1, 2, 3)) := by
  decide

/-- **C8, amended.** With the head split used by `forward`
(`out_channels = 2`: one shift channel, one log-scale channel), for every
configuration and every accepted input shape, both returned tensors have the
*input's* shape `(B, C, T)`; they are `(B, 1, T)` exactly when the input has
one channel (scalar mode), and in quantized one-hot mode (`C = 2 > 1`) they
are `(B, 2, T)`. -/
theorem forwardShapes_out2 (cfg : StudentCfg) (xsh : Dim3) (p : Dim3 × Dim3)
    (hc : cfg.out_channels = 2) (h : forwardShapes cfg xsh = some p) :
    p.1 = xsh ∧ p.2 = xsh := by
  obtain ⟨B, C, T⟩ := xsh
  unfold forwardShapes at h
  cases hloop : iafLoopShape cfg cfg.iaf_layer_size ((B, C, T), [], []) with
  | none => rw [hloop] at h; exact absurd h (by simp)
  | some st =>
    rw [hloop] at h
    simp only [Option.some_bind] at h
    obtain ⟨hz, hsm, hmm⟩ := iafLoopShape_inv hc (B, C, T) cfg.iaf_layer_size
      [] [] st (by simp) (by simp) hloop
    obtain ⟨zf, s, m⟩ := st
    simp only at hz hsm hmm h
    rw [hz] at h
    have := composeLoopShape_inv B C T s m hsm hmm (List.range s.length) p h
    rw [this]
    exact ⟨rfl, rfl⟩

theorem forwardShapes_out2_witness :
    (StudentCfg.mk true 2 64 [2, 2]).out_channels = 2 ∧
    forwardShapes ⟨true, 2, 64, [2, 2]⟩ (1, 1, 5) = some ((1, 1, 5), (1, 1, 5)) ∧
    (((1, 1, 5), (1, 1, 5)) : Dim3 × Dim3).1 = (1, 1, 5) ∧
    (((1, 1, 5), (1, 1, 5)) : Dim3 × Dim3).2 = (1, 1, 5) :=
  ⟨rfl, by decide,
    forwardShapes_out2 ⟨true, 2, 64, [2, 2]⟩ (1, 1, 5) ((1, 1, 5), (1, 1, 5))
      rfl (by decide)⟩

/-! ## Batch forward, data flow (lines 142–194)

Value-level embedding of `StudentWaveNet.forward` over an abstract tensor
type `τ`.  The tensor operations and submodules (external collaborators) are
the fields of `FwdOps`; `logistic` is the random source drawn at line 156
(`np.random.logistic(0, 1, size=x.size())`): a fixed random-source state is a
fixed function of the requested size.  The two `assert` statements (lines 159
and 171) are modelled as `Option` failures. -/

structure FwdOps (τ : Type) where
  size : τ → Nat × Nat × Nat
  dims : τ → Nat
  logistic : Nat × Nat × Nat → τ
  zerosLike : Nat × Nat × Nat → τ
  onesLike : Nat × Nat × Nat → τ
  mul : τ → τ → τ
  add : τ → τ → τ
  texp : τ → τ
  sliceMu : τ → τ
  sliceScale : τ → τ
  view2 : τ → Nat → τ
  embed_speakers : τ → τ
  transpose12 : τ → τ
  expandGlobalBCT : Nat → Nat → Option τ → Option τ
  unsqueeze1 : τ → τ
  squeeze1 : τ → τ
  upsample_conv : Option (List (τ → τ))
  first_conv : τ → τ
  iaf_layers : List (List (τ → Option τ → Option τ → τ × τ))
  last_layer : List (τ → τ)

def StudentWaveNet_forward {τ : Type} (ops : FwdOps τ) (x : τ) (c g : Option τ) :
    Option (τ × τ) :=
  -- B, _, T = x.size()  (line 155); z = logistic noise of size x.size() (156)
  let B := (ops.size x).1
  let T := (ops.size x).2.2
  let z := ops.logistic (ops.size x)
  -- global conditioning (lines 157–162)
  let gEmb : Option (Option τ) :=
    match g with
    | some gv =>
        let ge := ops.embed_speakers (ops.view2 gv B)
        if ops.dims ge = 3 then some (some (ops.transpose12 ge)) else none
    | none => some none
  gEmb.bind fun g2 =>
  let g_bct := ops.expandGlobalBCT B T g2
  -- local conditioning upsampling (lines 164–171)
  let cUp : Option (Option τ) :=
    match c, ops.upsample_conv with
    | some cv, some ups =>
        let cv2 := ops.squeeze1 (ups.foldl (fun a f => f a) (ops.unsqueeze1 cv))
        if (ops.size cv2).2.2 = (ops.size x).2.2 then some (some cv2) else none
    | cv, _ => some cv
  cUp.bind fun c2 =>
  -- mu_tot = zeros(z.size()); scale_tot = ones(z.size())  (lines 174–175)
  let mu0 := ops.zerosLike (ops.size z)
  let sc0 := ops.onesLike (ops.size z)
  -- flow loop (lines 178–187)
  let st := ops.iaf_layers.foldl
    (fun (st : τ × List τ × List τ) iaf =>
      let z := st.1
      let nz := ops.first_conv z
      let nz := iaf.foldl (fun nz f => (f nz c2 g_bct).1) nz
      let nz := ops.last_layer.foldl (fun nz f => f nz) nz
      let mu_f := ops.sliceMu nz
      let scale_f := ops.texp (ops.sliceScale nz)
      (ops.add (ops.mul z scale_f) mu_f, st.2.1 ++ [scale_f], st.2.2 ++ [mu_f]))
    (z, [], [])
  let zf := st.1
  let s := st.2.1
  let m := st.2.2
  -- composition loop (lines 188–193)
  some ((List.range s.length).foldl
    (fun (acc : τ × τ) i =>
      let ss := ops.onesLike (ops.size zf)
      let ss := (s.drop (i + 1)).foldl (fun a b => ops.mul a b) ss
      (ops.add acc.1 (ops.mul (m.getD i zf) ss), ops.mul acc.2 (s.getD i zf)))
    (mu0, sc0))

/-- **C7.** The batch forward path is deterministic given the noise draw, and
the input tensor `x` influences the result only through its shape: with the
same random-source state (the same `logistic` draw per size), the same `c`
and `g`, two inputs of identical size yield identical `(mu_tot, scale_tot)`
results. -/
theorem forward_depends_only_on_input_shape {τ : Type} (ops : FwdOps τ)
    (x1 x2 : τ) (c g : Option τ) (h : ops.size x1 = ops.size x2) :
    StudentWaveNet_forward ops x1 c g = StudentWaveNet_forward ops x2 c g := by
  unfold StudentWaveNet_forward
  rw [h]

def constOps : FwdOps ℚ where
  size := fun _ => (1, 1, 1)
  dims := fun _ => 3
  logistic := fun _ => 0
  zerosLike := fun _ => 0
  onesLike := fun _ => 1
  mul := fun a b => a * b
  add := fun a b => a + b
  texp := fun q => q
  sliceMu := fun q => q
  sliceScale := fun q => q
  view2 := fun q _ => q
  embed_speakers := fun q => q
  transpose12 := fun q => q
  expandGlobalBCT := fun _ _ og => og
  unsqueeze1 := fun q => q
  squeeze1 := fun q => q
  upsample_conv := none
  first_conv := fun q => q
  iaf_layers := [[fun z _ _ => (z, z)]]
  last_layer := [fun q => q]

theorem forward_depends_only_on_input_shape_witness :
    constOps.size 5 = constOps.size 7 ∧
    StudentWaveNet_forward constOps 5 none none
      = StudentWaveNet_forward constOps 7 none none :=
  ⟨rfl, forward_depends_only_on_input_shape constOps 5 7 none none rfl⟩
